import Mathlib

/-!
Verification of the VnetScanner Azure Function (`VnetScanner/__init__.py`).

The function's `main` reads three environment variables, then inside a
single `try` block it lists all virtual networks, derives each network's
resource group as `vnet.id.split('/')[4]`, lists the network's subnets
and, for each subnet, builds one table entity and writes it with an
update-then-insert-on-not-found protocol.  Any exception that escapes the
loop body is caught by the outer handler, which returns an HTTP 500
response; a completed loop returns HTTP 200.

The table store and the network-listing API are external collaborators:
the run is modelled parametrically in a `TableClient` (the pair of
`update_entity` / `create_entity` operations, either of which may fail
with a message string, mirroring `str(e)`), in the network-listing result
and in the per-network subnet-listing results.  A faithful Azure table
client over a key-addressed store is provided as the instance used by the
claims about real store behaviour.
-/

namespace VnetScanner

/-- Python's `pat in hay` on lists of characters: `pat` occurs as a
contiguous sublist of `hay`. -/
def subList (pat : List Char) : List Char → Bool
  | [] => pat.isEmpty
  | c :: t => pat.isPrefixOf (c :: t) || subList pat t

/-- Python's `pat in hay` for strings (substring containment). -/
def containsStr (hay pat : String) : Bool :=
  subList pat.data hay.data

/-- The not-found test of the source:
`"ResourceNotFound" in str(e) or "The specified entity does not exist" in str(e)`. -/
def isNotFoundError (e : String) : Bool :=
  containsStr e "ResourceNotFound" || containsStr e "The specified entity does not exist"

/-- Python's `s.split(c)` with an explicit one-character separator: split at every
occurrence, keeping empty fields. -/
def splitOnChar (c : Char) : List Char → List (List Char)
  | [] => [[]]
  | x :: xs =>
    let r := splitOnChar c xs
    if x = c then [] :: r
    else
      match r with
      | [] => [[x]]
      | h :: t => (x :: h) :: t

/-- `vnet.id.split('/')[4]` of the source: the element at index 4 of the split,
`none` when the index is out of range (Python raises `IndexError` there). -/
def resourceGroupFromId (id : String) : Option String :=
  ((splitOnChar '/' id.data).get? 4).map fun l => String.mk l

/-- A virtual network as consumed by the source: `vnet.id`, `vnet.name`,
`vnet.location` and `vnet.address_space.address_prefixes` (where either the
address space or its prefix list may be absent: `none` covers both Python
falsy cases `None`; `some []` is the falsy empty list). -/
structure VNet where
  id : String
  name : String
  location : String
  addressPrefixes : Option (List String)
deriving DecidableEq, Repr

/-- A subnet as consumed by the source: `subnet.id`, `subnet.name`,
`subnet.address_prefix`. -/
structure Subnet where
  id : String
  name : String
  addressPrefix : String
deriving DecidableEq, Repr

/-- The entity dictionary the source builds for one subnet. -/
structure Entity where
  partitionKey : String
  rowKey : String
  vnetName : String
  subnetName : String
  addressPrefix : String
  resourceGroup : String
  location : String
  timestamp : String
  vnetId : String
  subnetId : String
  vnetAddressSpace : String
  subnetAddressSpace : String
deriving DecidableEq, Repr

/-- `vnet.address_space.address_prefixes[0] if vnet.address_space and
vnet.address_space.address_prefixes else ""`. -/
def firstVnetPrefix : Option (List String) → String
  | some (p :: _) => p
  | _ => ""

/-- The entity construction of the source's inner loop.  `rg` is the
resource group the orchestrator derived from the network's id; `now` is the
value of `datetime.utcnow().isoformat()` at construction time. -/
def mkEntity (vnet : VNet) (rg : String) (subnet : Subnet) (now : String) : Entity :=
  { partitionKey := vnet.name
    rowKey := subnet.name
    vnetName := vnet.name
    subnetName := subnet.name
    addressPrefix := subnet.addressPrefix
    resourceGroup := rg
    location := vnet.location
    timestamp := now
    vnetId := vnet.id
    subnetId := subnet.id
    vnetAddressSpace := firstVnetPrefix vnet.addressPrefixes
    subnetAddressSpace := subnet.addressPrefix }

/-- The `(PartitionKey, RowKey)` pair of an entity. -/
def entityKey (e : Entity) : String × String :=
  (e.partitionKey, e.rowKey)

/-- The table-store collaborator: `update_entity` and `create_entity` over an
abstract store state `σ`; a failing call leaves the state unchanged and
yields the exception's message `str(e)`. -/
structure TableClient (σ : Type) where
  update : σ → Entity → Except String σ
  create : σ → Entity → Except String σ

/-- The message of `logging.error(f"Error processing subnet '{subnet.name}'
for VNet '{vnet.name}': {str(e)}")`. -/
def subnetErrorMsg (subnetName vnetName e : String) : String :=
  "Error processing subnet '" ++ subnetName ++ "' for VNet '" ++ vnetName ++ "': " ++ e

/-- The outcome of the source's inner `try`/`except` around one entity write. -/
inductive WriteOutcome (σ : Type) where
  /-- `update_entity` succeeded. -/
  | updated (st : σ)
  /-- `update_entity` failed not-found, `create_entity` succeeded. -/
  | inserted (st : σ)
  /-- `update_entity` failed with a non-not-found error: logged, loop continues. -/
  | reported (msg : String)
  /-- `create_entity` failed: the exception is not caught and propagates. -/
  | raised (msg : String)
deriving Repr

/-- The upsert executor: the source's inner `try`/`except` block for one
entity.  Attempt `update_entity`; on an exception whose text matches the
not-found test, attempt `create_entity` (whose own exception is uncaught);
on any other exception log an error message and fall through. -/
def upsertEntity (tc : TableClient σ) (st : σ) (entity : Entity) : WriteOutcome σ :=
  match tc.update st entity with
  | .ok st' => .updated st'
  | .error e =>
    if isNotFoundError e then
      match tc.create st entity with
      | .ok st' => .inserted st'
      | .error e2 => .raised e2
    else .reported (subnetErrorMsg entity.subnetName entity.vnetName e)

/-- What one run accumulates: the store state threaded through the writes,
the messages passed to `logging.error` in the loop, the entities
successfully written, and the keys written by each branch. -/
structure RunTrace (σ : Type) where
  store : σ
  errors : List String
  written : List Entity
  updatedKeys : List (String × String)
  insertedKeys : List (String × String)
deriving Repr

/-- The trace at the start of a run over store state `st`. -/
def initTrace (st : σ) : RunTrace σ :=
  { store := st, errors := [], written := [], updatedKeys := [], insertedKeys := [] }

/-- The source's inner `for subnet in subnets` loop.  Returns the trace so
far and `some msg` when an uncaught exception aborted the loop. -/
def processSubnets (tc : TableClient σ) (vnet : VNet) (rg : String) (now : String) :
    RunTrace σ → List Subnet → RunTrace σ × Option String
  | t, [] => (t, none)
  | t, s :: ss =>
    let entity := mkEntity vnet rg s now
    match upsertEntity tc t.store entity with
    | .updated st' =>
      processSubnets tc vnet rg now
        { t with store := st', written := t.written ++ [entity],
                 updatedKeys := t.updatedKeys ++ [entityKey entity] } ss
    | .inserted st' =>
      processSubnets tc vnet rg now
        { t with store := st', written := t.written ++ [entity],
                 insertedKeys := t.insertedKeys ++ [entityKey entity] } ss
    | .reported msg =>
      processSubnets tc vnet rg now { t with errors := t.errors ++ [msg] } ss
    | .raised msg => (t, some msg)

/-- The source's outer `for vnet in vnets` loop: derive the resource group
(`vnet.id.split('/')[4]`, raising `IndexError` when absent), list the
network's subnets (`listSubnets`, whose failure raises), then run the inner
loop.  An uncaught exception aborts the remaining networks. -/
def processVNets (tc : TableClient σ) (listSubnets : VNet → Except String (List Subnet))
    (now : String) : RunTrace σ → List VNet → RunTrace σ × Option String
  | t, [] => (t, none)
  | t, v :: vs =>
    match resourceGroupFromId v.id with
    | none => (t, some "list index out of range")
    | some rg =>
      match listSubnets v with
      | .error e => (t, some e)
      | .ok subnets =>
        match processSubnets tc v rg now t subnets with
        | (t', none) => processVNets tc listSubnets now t' vs
        | (t', some e) => (t', some e)

/-- The HTTP response of the function. -/
structure HttpResponse where
  body : String
  statusCode : Nat
deriving DecidableEq, Repr

/-- The body of the outer `try` block from the `list_all` call on: list the
networks (a failure raises into the outer handler), run the loops, and
return 200 on completion; any uncaught exception yields the 500 response
with the exception's text. -/
def runMain (tc : TableClient σ) (st : σ) (vnetsResult : Except String (List VNet))
    (listSubnets : VNet → Except String (List Subnet)) (now : String) :
    HttpResponse × RunTrace σ :=
  match vnetsResult with
  | .error e =>
    ({ body := "An error occurred: " ++ e, statusCode := 500 }, initTrace st)
  | .ok vnets =>
    match processVNets tc listSubnets now (initTrace st) vnets with
    | (t, none) =>
      ({ body := "VNet and Subnet scan completed successfully.", statusCode := 200 }, t)
    | (t, some e) =>
      ({ body := "An error occurred: " ++ e, statusCode := 500 }, t)

/-- `os.environ[k]`: the value, or a raised `KeyError` when absent. -/
def getEnv (env : String → Option String) (k : String) : Except String String :=
  match env k with
  | some v => .ok v
  | none => .error ("KeyError: " ++ k)

/-- The whole of `main`: the three `os.environ` reads happen before the
`try` block, so a `KeyError` there escapes `main` unhandled (`.error`);
everything inside the `try` produces a response (`.ok`). -/
def mainModel (env : String → Option String) (tc : TableClient σ) (st : σ)
    (vnetsResult : Except String (List VNet))
    (listSubnets : VNet → Except String (List Subnet)) (now : String) :
    Except String (HttpResponse × RunTrace σ) :=
  match getEnv env "AZURE_SUBSCRIPTION_ID" with
  | .error e => .error e
  | .ok _ =>
    match getEnv env "STORAGE_ACCOUNT_NAME" with
    | .error e => .error e
    | .ok _ =>
      match getEnv env "STORAGE_TABLE_NAME" with
      | .error e => .error e
      | .ok _ => .ok (runMain tc st vnetsResult listSubnets now)

/-! ## The faithful Azure table client

Azure Table Storage is key-addressed: the store is a map from
`(PartitionKey, RowKey)` to the stored entity.  `update_entity` replaces an
existing entity and fails with the service's not-found error when the key is
absent; `create_entity` inserts a fresh entity and fails when the key is
already present. -/

/-- The store state of the faithful client. -/
def Store : Type :=
  String × String → Option Entity

/-- The message of the table service's entity-not-found error, as it appears
in `str(e)`. -/
def notFoundMsg : String :=
  "ResourceNotFoundError: The specified entity does not exist."

/-- `update_entity` on Azure Table Storage: replace the entity at the key,
or fail with the not-found error when the key is absent. -/
def azureUpdate (st : Store) (e : Entity) : Except String Store :=
  match st (entityKey e) with
  | some _ => .ok fun k => if k = entityKey e then some e else st k
  | none => .error notFoundMsg

/-- `create_entity` on Azure Table Storage: insert the entity at the key, or
fail when the key is already present. -/
def azureCreate (st : Store) (e : Entity) : Except String Store :=
  match st (entityKey e) with
  | some _ => .error "EntityAlreadyExists: The specified entity already exists."
  | none => .ok fun k => if k = entityKey e then some e else st k

/-- The faithful Azure table client. -/
def azureClient : TableClient Store :=
  { update := azureUpdate, create := azureCreate }

/-- The empty store. -/
def emptyStore : Store := fun _ => none

/-! ## Derived pure views of the run

On the faithful client both the update branch and the insert branch leave
the key holding the written entity, so a fault-free run's effect on the
store is a pure fold of point updates over the sequence of constructed
entities. -/

/-- Writing entity `e` at its key: the common effect of a successful
`update_entity` and a successful `create_entity`. -/
def updStore (st : Store) (e : Entity) : Store :=
  fun k => if k = entityKey e then some e else st k

/-- Writing a whole sequence of entities, first to last. -/
def applyEntities (st : Store) (es : List Entity) : Store :=
  es.foldl updStore st

/-- The keys a fault-free run writes through the update branch: the key of
each entity already present in the store at the moment it is written. -/
def updSplit (st : Store) : List Entity → List (String × String)
  | [] => []
  | e :: es =>
    if (st (entityKey e)).isSome then entityKey e :: updSplit (updStore st e) es
    else updSplit (updStore st e) es

/-- The keys a fault-free run writes through the insert branch: the key of
each entity absent from the store at the moment it is written. -/
def insSplit (st : Store) : List Entity → List (String × String)
  | [] => []
  | e :: es =>
    if (st (entityKey e)).isSome then insSplit (updStore st e) es
    else entityKey e :: insSplit (updStore st e) es

/-- The last entity of the list whose key is `k`, if any: the value
`applyEntities` leaves at `k`. -/
def lastWrite (k : String × String) : List Entity → Option Entity
  | [] => none
  | e :: es =>
    match lastWrite k es with
    | some x => some x
    | none => if k = entityKey e then some e else none

/-- The entity normalizer as a pure function: each input network comes with
the resource group the orchestrator derived for it and its subnet list; the
output is one entity per subnet, in source order (the source builds no
network-level entity). -/
def normalizeAll (input : List (VNet × String × List Subnet)) (now : String) : List Entity :=
  input.flatMap fun p => p.2.2.map fun s => mkEntity p.1 p.2.1 s now

/-- The entities one network contributes in a run where its subnets listing
is `sn` (`getD ""` is never reached for a network whose id is well formed). -/
def vnetEntities (sn : VNet → List Subnet) (now : String) (v : VNet) : List Entity :=
  (sn v).map fun s => mkEntity v ((resourceGroupFromId v.id).getD "") s now

/-- The flat sequence of entities a fault-free run constructs. -/
def allEntities (vs : List VNet) (sn : VNet → List Subnet) (now : String) : List Entity :=
  vs.flatMap (vnetEntities sn now)

/-- The `(PartitionKey, RowKey)` pairs a run writes; independent of the
run's clock. -/
def allKeys (vs : List VNet) (sn : VNet → List Subnet) : List (String × String) :=
  vs.flatMap fun v => (sn v).map fun s => (v.name, s.name)

/-! ## Concrete fixtures for counterexamples and witnesses -/

/-- A well-formed network. -/
def vnetA : VNet :=
  { id := "/subscriptions/s/resourceGroups/rgA/p/vnetA"
    name := "vnetA", location := "westeurope", addressPrefixes := some ["10.0.0.0/16"] }

/-- A second well-formed network. -/
def vnetB : VNet :=
  { id := "/subscriptions/s/resourceGroups/rgB/p/vnetB"
    name := "vnetB", location := "westeurope", addressPrefixes := some ["10.1.0.0/16"] }

/-- A third well-formed network. -/
def vnetC : VNet :=
  { id := "/subscriptions/s/resourceGroups/rgC/p/vnetC"
    name := "vnetC", location := "westeurope", addressPrefixes := some ["10.2.0.0/16"] }

/-- A network whose id has no fifth path segment. -/
def vnetBad : VNet :=
  { id := "bad-id", name := "vnetBad", location := "westeurope", addressPrefixes := none }

/-- Subnets of the fixtures. -/
def subnetA1 : Subnet := { id := "idA1", name := "subA1", addressPrefix := "10.0.1.0/24" }

/-- Second subnet of `vnetA`. -/
def subnetA2 : Subnet := { id := "idA2", name := "subA2", addressPrefix := "10.0.2.0/24" }

/-- Subnet of `vnetB`. -/
def subnetB1 : Subnet := { id := "idB1", name := "subB1", addressPrefix := "10.1.1.0/24" }

/-- Subnet of `vnetC`. -/
def subnetC1 : Subnet := { id := "idC1", name := "subC1", addressPrefix := "10.2.1.0/24" }

/-- A subnet listing that succeeds for every fixture network. -/
def lsFixture : VNet → Except String (List Subnet) :=
  fun v =>
    if v.name = "vnetA" then .ok [subnetA1, subnetA2]
    else if v.name = "vnetB" then .ok [subnetB1]
    else if v.name = "vnetC" then .ok [subnetC1]
    else .ok []

/-- The fixture subnet listing as a pure (never-failing) function. -/
def lsFix : VNet → List Subnet :=
  fun v => if v.name = "vnetA" then [subnetA1, subnetA2] else []

/-- A subnet listing that raises exactly for `vnetB`. -/
def lsFailB : VNet → Except String (List Subnet) :=
  fun v =>
    if v.name = "vnetB" then .error "AuthorizationFailed"
    else lsFixture v

/-- A table client whose `update_entity` behaves like Azure but whose
`create_entity` always raises: exercises the uncaught insert failure. -/
def failingInsertClient : TableClient Store :=
  { update := azureUpdate, create := fun _ _ => .error "InsertBoom" }

/-- A table client whose `update_entity` always raises a non-not-found
error: exercises the logged-and-continue branch. -/
def failingUpdateClient : TableClient Store :=
  { update := fun _ _ => .error "ServerBusy", create := azureCreate }

/-- The field coincidences every constructed entity satisfies (claim C10):
`vnetName`/`subnetName` duplicate the key, `subnetAddressSpace` duplicates
`addressPrefix`, and `resourceGroup` is the fifth path segment of `vnetId`. -/
def writtenInv (e : Entity) : Prop :=
  e.vnetName = e.partitionKey ∧ e.subnetName = e.rowKey ∧
  e.subnetAddressSpace = e.addressPrefix ∧
  resourceGroupFromId e.vnetId = some e.resourceGroup

/-! ## Substring facts -/

theorem subList_of_isPrefixOf {pat hay : List Char} (h : pat.isPrefixOf hay = true) :
    subList pat hay = true := by
  cases hay with
  | nil =>
    have : pat = [] := List.prefix_nil.mp (List.isPrefixOf_iff_prefix.mp h)
    simp [subList, this]
  | cons c t => simp [subList, h]

theorem subList_middle (pat l r : List Char) : subList pat (l ++ pat ++ r) = true := by
  induction l with
  | nil =>
    exact subList_of_isPrefixOf (List.isPrefixOf_iff_prefix.mpr (List.prefix_append pat r))
  | cons c t ih =>
    simp only [List.cons_append, subList, Bool.or_eq_true]
    exact Or.inr ih

theorem containsStr_middle (l pat r : String) : containsStr (l ++ pat ++ r) pat = true := by
  simp only [containsStr, String.data_append]
  exact subList_middle pat.data l.data r.data

/-- The logged error message names the subnet (the entity's `RowKey`). -/
theorem subnetErrorMsg_mentions_subnet (sn vn e : String) :
    containsStr (subnetErrorMsg sn vn e) sn = true := by
  have := containsStr_middle "Error processing subnet '" sn ("' for VNet '" ++ vn ++ "': " ++ e)
  simpa [subnetErrorMsg, String.append_assoc] using this

/-- The logged error message names the network (the entity's `PartitionKey`). -/
theorem subnetErrorMsg_mentions_vnet (sn vn e : String) :
    containsStr (subnetErrorMsg sn vn e) vn = true := by
  have := containsStr_middle ("Error processing subnet '" ++ sn ++ "' for VNet '") vn ("': " ++ e)
  simpa [subnetErrorMsg, String.append_assoc] using this

/-! ## Claims -/

/-- **C7.** A network that declares no address space — `address_space` is
`None` or its `address_prefixes` list is absent or empty — yields an entity
whose `vnetAddressSpace` field is the empty string.  The field is total in
the embedding (`Entity.vnetAddressSpace : String`), so the key is always
present and never null, and `mkEntity` is a total function: normalization
cannot fail on the missing optional field. -/
theorem claim_C7 (vnet : VNet) (rg : String) (subnet : Subnet) (now : String)
    (h : vnet.addressPrefixes = none ∨ vnet.addressPrefixes = some []) :
    (mkEntity vnet rg subnet now).vnetAddressSpace = "" := by
  rcases h with h | h <;> simp [mkEntity, firstVnetPrefix, h]

theorem claim_C7_witness :
    (mkEntity vnetBad "rg" subnetA1 "t").vnetAddressSpace = "" :=
  claim_C7 vnetBad "rg" subnetA1 "t" (Or.inl rfl)

/-- **C8.** With zero networks the loop body never runs: the function
returns the 200 success response, the trace records no written items, no
inserted or updated keys, and no logged failures, for any client and
initial store. -/
theorem claim_C8 {σ : Type} (tc : TableClient σ) (st : σ)
    (ls : VNet → Except String (List Subnet)) (now : String) :
    runMain tc st (.ok []) ls now =
      ({ body := "VNet and Subnet scan completed successfully.", statusCode := 200 },
        initTrace st) :=
  rfl

/-- **C9.** The three `os.environ` lookups precede the `try` block: when any
of the three variables is absent, `main` raises (`Except.error`) rather than
returning any response, in particular not the handled 500 response. -/
theorem claim_C9 {σ : Type} (env : String → Option String) (tc : TableClient σ) (st : σ)
    (vnetsResult : Except String (List VNet))
    (listSubnets : VNet → Except String (List Subnet)) (now : String)
    (h : env "AZURE_SUBSCRIPTION_ID" = none ∨ env "STORAGE_ACCOUNT_NAME" = none ∨
      env "STORAGE_TABLE_NAME" = none) :
    (∃ e, mainModel env tc st vnetsResult listSubnets now = .error e) ∧
      ∀ r, mainModel env tc st vnetsResult listSubnets now ≠ .ok r := by
  have he : ∃ e, mainModel env tc st vnetsResult listSubnets now = .error e := by
    cases h1 : env "AZURE_SUBSCRIPTION_ID" <;>
      cases h2 : env "STORAGE_ACCOUNT_NAME" <;>
        cases h3 : env "STORAGE_TABLE_NAME" <;>
          simp_all [mainModel, getEnv]
  refine ⟨he, fun r hr => ?_⟩
  obtain ⟨e, he⟩ := he
  rw [hr] at he
  exact Except.noConfusion he

theorem claim_C9_witness :
    (∃ e, mainModel (fun _ => none) azureClient emptyStore (.ok []) lsFixture "t" = .error e) ∧
      ∀ r, mainModel (fun _ => none) azureClient emptyStore (.ok []) lsFixture "t" ≠ .ok r :=
  claim_C9 (fun _ => none) azureClient emptyStore (.ok []) lsFixture "t" (Or.inl rfl)

/-- **C1.** The upsert executor for one item: (a) the update is attempted
first and its success completes the write without consulting the insert
operation (the outcome is the same for every `create`); (b) exactly when
the update fails with a not-found condition the insert is attempted and
decides the outcome; (c) when the update fails for any other reason the
insert is not consulted, the failure is reported in an error message
naming the item's `RowKey` and `PartitionKey`, and the subnet loop
continues with the next item. -/
theorem claim_C1 {σ : Type} (tc : TableClient σ) (st : σ) (vnet : VNet) (rg : String)
    (subnet : Subnet) (now : String) :
    (∀ st', tc.update st (mkEntity vnet rg subnet now) = .ok st' →
      upsertEntity tc st (mkEntity vnet rg subnet now) = .updated st' ∧
      ∀ create', upsertEntity ⟨tc.update, create'⟩ st (mkEntity vnet rg subnet now) =
        .updated st') ∧
    (∀ e, tc.update st (mkEntity vnet rg subnet now) = .error e → isNotFoundError e = true →
      upsertEntity tc st (mkEntity vnet rg subnet now) =
        (match tc.create st (mkEntity vnet rg subnet now) with
          | .ok st' => .inserted st'
          | .error e2 => .raised e2)) ∧
    (∀ e, tc.update st (mkEntity vnet rg subnet now) = .error e → isNotFoundError e = false →
      (∀ create', upsertEntity ⟨tc.update, create'⟩ st (mkEntity vnet rg subnet now) =
        .reported (subnetErrorMsg subnet.name vnet.name e)) ∧
      containsStr (subnetErrorMsg subnet.name vnet.name e)
        (mkEntity vnet rg subnet now).rowKey = true ∧
      containsStr (subnetErrorMsg subnet.name vnet.name e)
        (mkEntity vnet rg subnet now).partitionKey = true ∧
      ∀ (t : RunTrace σ) (ss : List Subnet), t.store = st →
        processSubnets tc vnet rg now t (subnet :: ss) =
          processSubnets tc vnet rg now
            { t with errors := t.errors ++ [subnetErrorMsg subnet.name vnet.name e] } ss) := by
  refine ⟨fun st' h => ⟨?_, fun create' => ?_⟩, fun e h hnf => ?_, fun e h hnf => ⟨fun create' => ?_, ?_, ?_, fun t ss ht => ?_⟩⟩
  · simp [upsertEntity, h]
  · simp [upsertEntity, h]
  · simp [upsertEntity, h, hnf]
  · simp only [upsertEntity, h, hnf]
    rfl
  · exact subnetErrorMsg_mentions_subnet subnet.name vnet.name e
  · exact subnetErrorMsg_mentions_vnet subnet.name vnet.name e
  · subst ht
    have hup : upsertEntity tc t.store (mkEntity vnet rg subnet now) =
        .reported (subnetErrorMsg subnet.name vnet.name e) := by
      simp only [upsertEntity, h, hnf]
      rfl
    simp only [processSubnets, hup]

theorem claim_C1_witness :
    upsertEntity failingUpdateClient emptyStore (mkEntity vnetA "rgA" subnetA1 "t") =
      .reported (subnetErrorMsg "subA1" "vnetA" "ServerBusy") :=
  ((claim_C1 failingUpdateClient emptyStore vnetA "rgA" subnetA1 "t").2.2 "ServerBusy"
    rfl (by decide)).1 azureCreate

/-- **C10** helper: every entity the inner loop appends to `written` either
was there already or satisfies the field invariant (the loop is entered only
with `rg` the derived fifth path segment of the network's id). -/
theorem processSubnets_writtenInv {σ : Type} (tc : TableClient σ) (v : VNet) (rg : String)
    (now : String) (hrg : resourceGroupFromId v.id = some rg) :
    ∀ (ss : List Subnet) (t : RunTrace σ) (e : Entity),
      e ∈ (processSubnets tc v rg now t ss).1.written →
        e ∈ t.written ∨ writtenInv e := by
  intro ss
  induction ss with
  | nil => intro t e he; exact Or.inl (by simpa [processSubnets] using he)
  | cons s ss ih =>
    intro t e he
    have hinv : writtenInv (mkEntity v rg s now) := by
      refine ⟨rfl, rfl, rfl, ?_⟩
      simpa [mkEntity] using hrg
    rw [processSubnets] at he
    cases hup : upsertEntity tc t.store (mkEntity v rg s now) with
    | updated st' =>
      simp only [hup] at he
      rcases ih _ e he with hmem | hi
      · rcases List.mem_append.mp hmem with hmem | hmem
        · exact Or.inl hmem
        · exact Or.inr (by simpa using List.mem_singleton.mp hmem ▸ hinv)
      · exact Or.inr hi
    | inserted st' =>
      simp only [hup] at he
      rcases ih _ e he with hmem | hi
      · rcases List.mem_append.mp hmem with hmem | hmem
        · exact Or.inl hmem
        · exact Or.inr (by simpa using List.mem_singleton.mp hmem ▸ hinv)
      · exact Or.inr hi
    | reported msg =>
      simp only [hup] at he
      exact ih { t with errors := t.errors ++ [msg] } e he
    | raised msg =>
      simp only [hup] at he
      exact Or.inl he

/-- **C10** helper: the same invariant through the outer network loop. -/
theorem processVNets_writtenInv {σ : Type} (tc : TableClient σ)
    (ls : VNet → Except String (List Subnet)) (now : String) :
    ∀ (vs : List VNet) (t : RunTrace σ) (e : Entity),
      e ∈ (processVNets tc ls now t vs).1.written →
        e ∈ t.written ∨ writtenInv e := by
  intro vs
  induction vs with
  | nil => intro t e he; exact Or.inl (by simpa [processVNets] using he)
  | cons v vs ih =>
    intro t e he
    rw [processVNets] at he
    cases hrg : resourceGroupFromId v.id with
    | none => simp only [hrg] at he; exact Or.inl he
    | some rg =>
      cases hls : ls v with
      | error err => simp only [hrg, hls] at he; exact Or.inl he
      | ok subnets =>
        simp only [hrg, hls] at he
        cases hps : processSubnets tc v rg now t subnets with
        | mk t' res =>
          cases res with
          | none =>
            simp only [hps] at he
            rcases ih t' e he with hmem | hi
            · have := processSubnets_writtenInv tc v rg now hrg subnets t e
              rw [hps] at this
              exact this hmem
            · exact Or.inr hi
          | some err =>
            simp only [hps] at he
            have := processSubnets_writtenInv tc v rg now hrg subnets t e
            rw [hps] at this
            exact this he

/-- **C10.** Every entity a run writes to the store — whatever the client's
failure behaviour — has `vnetName` equal to its `PartitionKey`, `subnetName`
equal to its `RowKey`, `subnetAddressSpace` equal to `addressPrefix` (both
copied from the same subnet field), and `resourceGroup` equal to the fifth
path segment of its `vnetId`. -/
theorem claim_C10 {σ : Type} (tc : TableClient σ) (st : σ)
    (vnetsResult : Except String (List VNet))
    (ls : VNet → Except String (List Subnet)) (now : String) (e : Entity)
    (h : e ∈ ((runMain tc st vnetsResult ls now).2).written) :
    e.vnetName = e.partitionKey ∧ e.subnetName = e.rowKey ∧
      e.subnetAddressSpace = e.addressPrefix ∧
      resourceGroupFromId e.vnetId = some e.resourceGroup := by
  have : e ∈ (initTrace st).written ∨ writtenInv e := by
    cases vr : vnetsResult with
    | error err =>
      simp only [runMain, vr] at h
      exact Or.inl h
    | ok vnets =>
      simp only [runMain, vr] at h
      cases hpv : processVNets tc ls now (initTrace st) vnets with
      | mk t' res =>
        have := processVNets_writtenInv tc ls now vnets (initTrace st) e
        rw [hpv] at this
        cases res with
        | none => simp only [hpv] at h; exact this h
        | some err => simp only [hpv] at h; exact this h
  rcases this with hmem | hi
  · exact absurd hmem (by simp [initTrace])
  · exact hi

/-- The inner loop over a concatenation: the second part runs only when the
first part raised no exception, from the trace the first part left. -/
theorem processSubnets_append {σ : Type} (tc : TableClient σ) (v : VNet) (rg : String)
    (now : String) (ss1 ss2 : List Subnet) : ∀ t : RunTrace σ,
    processSubnets tc v rg now t (ss1 ++ ss2) =
      (match processSubnets tc v rg now t ss1 with
        | (t1, none) => processSubnets tc v rg now t1 ss2
        | (t1, some e) => (t1, some e)) := by
  induction ss1 with
  | nil => intro t; simp [processSubnets]
  | cons s ss ih =>
    intro t
    rw [List.cons_append, processSubnets]
    cases hup : upsertEntity tc t.store (mkEntity v rg s now) with
    | updated st' => simp only [processSubnets, hup]; exact ih _
    | inserted st' => simp only [processSubnets, hup]; exact ih _
    | reported msg => simp only [processSubnets, hup]; exact ih _
    | raised msg => simp only [processSubnets, hup]

/-- The outer loop over a concatenation: the second part runs only when the
first part raised no exception, from the trace the first part left. -/
theorem processVNets_append {σ : Type} (tc : TableClient σ)
    (ls : VNet → Except String (List Subnet)) (now : String)
    (vs1 vs2 : List VNet) : ∀ t : RunTrace σ,
    processVNets tc ls now t (vs1 ++ vs2) =
      (match processVNets tc ls now t vs1 with
        | (t1, none) => processVNets tc ls now t1 vs2
        | (t1, some e) => (t1, some e)) := by
  induction vs1 with
  | nil => intro t; simp [processVNets]
  | cons v vs ih =>
    intro t
    rw [List.cons_append, processVNets]
    cases hrg : resourceGroupFromId v.id with
    | none => simp only [processVNets, hrg]
    | some rg =>
      cases hls : ls v with
      | error err => simp only [processVNets, hrg, hls]
      | ok subnets =>
        cases hps : processSubnets tc v rg now t subnets with
        | mk t' res =>
          cases res with
          | none => simp only [processVNets, hrg, hls, hps]; exact ih _
          | some err => simp only [processVNets, hrg, hls, hps]

theorem claim_C10_witness :
    (mkEntity vnetA "rgA" subnetA1 "t").vnetName =
        (mkEntity vnetA "rgA" subnetA1 "t").partitionKey ∧
      (mkEntity vnetA "rgA" subnetA1 "t").subnetName =
        (mkEntity vnetA "rgA" subnetA1 "t").rowKey ∧
      (mkEntity vnetA "rgA" subnetA1 "t").subnetAddressSpace =
        (mkEntity vnetA "rgA" subnetA1 "t").addressPrefix ∧
      resourceGroupFromId (mkEntity vnetA "rgA" subnetA1 "t").vnetId =
        some (mkEntity vnetA "rgA" subnetA1 "t").resourceGroup :=
  claim_C10 azureClient emptyStore (.ok [vnetA]) lsFixture "t"
    (mkEntity vnetA "rgA" subnetA1 "t") (by decide)

/-- **C2, counterexample.** Three networks, subnet listing fails for the
second: the run reports 500 (not success), and the third network's item is
never written, while the first network's items are — refuting both "the run
still reports overall success" and "all other networks are still
processed". -/
theorem claim_C2_cex :
    (runMain azureClient emptyStore (.ok [vnetA, vnetB, vnetC]) lsFailB "t").1.statusCode = 500 ∧
      ((runMain azureClient emptyStore (.ok [vnetA, vnetB, vnetC]) lsFailB "t").2).store
        ("vnetC", "subC1") = none ∧
      ((runMain azureClient emptyStore (.ok [vnetA, vnetB, vnetC]) lsFailB "t").2).store
        ("vnetA", "subA1") = some (mkEntity vnetA "rgA" subnetA1 "t") :=
  ⟨by decide, by decide, by decide⟩

/-- **C2, amended.** When listing the subnets of one network fails (or
deriving its resource group fails), the raised exception aborts the loop:
items written for earlier networks remain (the final trace is exactly the
trace left by the earlier networks), the failed network and every
subsequent network are skipped, no failure count is recorded, and the run
reports failure (HTTP 500) carrying the error's text. -/
theorem claim_C2_amended {σ : Type} (tc : TableClient σ) (st : σ)
    (ls : VNet → Except String (List Subnet)) (now : String)
    (vs1 : List VNet) (v : VNet) (vs2 : List VNet) (t1 : RunTrace σ) (e : String)
    (h1 : processVNets tc ls now (initTrace st) vs1 = (t1, none))
    (h2 : (resourceGroupFromId v.id = none ∧ e = "list index out of range") ∨
      ∃ rg, resourceGroupFromId v.id = some rg ∧ ls v = .error e) :
    runMain tc st (.ok (vs1 ++ v :: vs2)) ls now =
      ({ body := "An error occurred: " ++ e, statusCode := 500 }, t1) := by
  have hv : processVNets tc ls now t1 (v :: vs2) = (t1, some e) := by
    rcases h2 with ⟨hrg, he⟩ | ⟨rg, hrg, hls⟩
    · subst he; simp only [processVNets, hrg]
    · simp only [processVNets, hrg, hls]
  have hfull : processVNets tc ls now (initTrace st) (vs1 ++ v :: vs2) = (t1, some e) := by
    rw [processVNets_append]
    simp only [h1]
    exact hv
  simp only [runMain, hfull]

theorem claim_C2_amended_witness :
    runMain azureClient emptyStore (.ok ([vnetA] ++ vnetB :: [vnetC])) lsFailB "t" =
      ({ body := "An error occurred: " ++ "AuthorizationFailed", statusCode := 500 },
        (processVNets azureClient lsFailB "t" (initTrace emptyStore) [vnetA]).1) :=
  claim_C2_amended azureClient emptyStore lsFailB "t" [vnetA] vnetB [vnetC]
    (processVNets azureClient lsFailB "t" (initTrace emptyStore) [vnetA]).1
    "AuthorizationFailed" rfl (Or.inr ⟨"rgB", rfl, rfl⟩)

/-- **C3, counterexample.** A client whose `create_entity` always raises:
for a network of two subnets (both absent from the store, so each update
fails not-found), the first subnet's insert failure yields the 500 response,
with no error logged for the item and nothing written — the remaining
subnet was never processed.  This refutes "the failure is reported tagged
with the item's key and processing continues"; the insert failure aborts
the run. -/
theorem claim_C3_cex :
    (runMain failingInsertClient emptyStore (.ok [vnetA]) lsFixture "t").1 =
      { body := "An error occurred: InsertBoom", statusCode := 500 } ∧
      ((runMain failingInsertClient emptyStore (.ok [vnetA]) lsFixture "t").2).errors = [] ∧
      ((runMain failingInsertClient emptyStore (.ok [vnetA]) lsFixture "t").2).written = [] :=
  ⟨by decide, by decide, by decide⟩

/-- **C3, amended.** A failing fallback insert raises an uncaught
exception: the item is not written and nothing is logged for it, the
remaining subnets of its network and all remaining networks are skipped,
the trace stays exactly as it was before the failing item, and the run
returns the 500 response carrying the insert error's text. -/
theorem claim_C3_amended {σ : Type} (tc : TableClient σ) (st : σ)
    (ls : VNet → Except String (List Subnet)) (now : String)
    (vs1 : List VNet) (v : VNet) (vs2 : List VNet) (rg : String)
    (ss1 : List Subnet) (s : Subnet) (ss2 : List Subnet)
    (t1 t2 : RunTrace σ) (e e2 : String)
    (h1 : processVNets tc ls now (initTrace st) vs1 = (t1, none))
    (hrg : resourceGroupFromId v.id = some rg)
    (hls : ls v = .ok (ss1 ++ s :: ss2))
    (hss : processSubnets tc v rg now t1 ss1 = (t2, none))
    (hup : tc.update t2.store (mkEntity v rg s now) = .error e)
    (hnf : isNotFoundError e = true)
    (hcr : tc.create t2.store (mkEntity v rg s now) = .error e2) :
    processSubnets tc v rg now t2 (s :: ss2) = (t2, some e2) ∧
      runMain tc st (.ok (vs1 ++ v :: vs2)) ls now =
        ({ body := "An error occurred: " ++ e2, statusCode := 500 }, t2) := by
  have hups : upsertEntity tc t2.store (mkEntity v rg s now) = .raised e2 := by
    simp [upsertEntity, hup, hnf, hcr]
  have hsub : processSubnets tc v rg now t2 (s :: ss2) = (t2, some e2) := by
    simp only [processSubnets, hups]
  refine ⟨hsub, ?_⟩
  have hsubs : processSubnets tc v rg now t1 (ss1 ++ s :: ss2) = (t2, some e2) := by
    rw [processSubnets_append]
    simp only [hss]
    exact hsub
  have hvnets : processVNets tc ls now t1 (v :: vs2) = (t2, some e2) := by
    simp only [processVNets, hrg, hls, hsubs]
  have hfull : processVNets tc ls now (initTrace st) (vs1 ++ v :: vs2) = (t2, some e2) := by
    rw [processVNets_append]
    simp only [h1]
    exact hvnets
  simp only [runMain, hfull]

theorem claim_C3_amended_witness :
    processSubnets failingInsertClient vnetA "rgA" "t" (initTrace emptyStore)
        (subnetA1 :: [subnetA2]) = (initTrace emptyStore, some "InsertBoom") ∧
      runMain failingInsertClient emptyStore (.ok ([] ++ vnetA :: [])) lsFixture "t" =
        ({ body := "An error occurred: " ++ "InsertBoom", statusCode := 500 },
          initTrace emptyStore) :=
  claim_C3_amended failingInsertClient emptyStore lsFixture "t" [] vnetA [] "rgA"
    [] subnetA1 [subnetA2] (initTrace emptyStore) (initTrace emptyStore)
    notFoundMsg "InsertBoom" rfl rfl rfl rfl rfl (by decide) rfl

/-- **C4, counterexample.** One network with one subnet: the normalizer
produces exactly one item (for the subnet), not `N + ΣMᵢ = 2` — the source
builds no network-level entity. -/
theorem claim_C4_cex :
    (normalizeAll [(vnetA, "rgA", [subnetA1])] "t").length = 1 ∧
      (normalizeAll [(vnetA, "rgA", [subnetA1])] "t").length ≠ 1 + 1 :=
  ⟨by decide, by decide⟩

/-- **C4, amended.** For every input of `N` networks each with `Mᵢ`
subnets, all network and subnet names pairwise distinct, the normalizer
produces exactly `ΣMᵢ` items — one per subnet and none per network — whose
`(PartitionKey, RowKey)` pairs are pairwise distinct. -/
theorem claim_C4_amended (input : List (VNet × String × List Subnet)) (now : String)
    (h : ((input.map fun p => p.1.name) ++
      input.flatMap fun p => p.2.2.map Subnet.name).Nodup) :
    (normalizeAll input now).length = (input.map fun p => p.2.2.length).sum ∧
      ((normalizeAll input now).map entityKey).Nodup := by
  constructor
  · simp [normalizeAll, List.length_flatMap, Function.comp_def, List.length_map]
  · have hsub : (input.flatMap fun p => p.2.2.map Subnet.name).Nodup := h.of_append_right
    have hmap : ((normalizeAll input now).map entityKey).map Prod.snd =
        input.flatMap fun p => p.2.2.map Subnet.name := by
      simp [normalizeAll, List.map_flatMap, List.map_map, Function.comp_def, entityKey, mkEntity]
    exact List.Nodup.of_map Prod.snd (by rw [hmap]; exact hsub)

theorem claim_C4_amended_witness :
    (normalizeAll [(vnetA, "rgA", [subnetA1, subnetA2]), (vnetB, "rgB", [subnetB1])] "t").length =
        ([(vnetA, "rgA", [subnetA1, subnetA2]), (vnetB, "rgB", [subnetB1])].map
          fun p => p.2.2.length).sum ∧
      ((normalizeAll [(vnetA, "rgA", [subnetA1, subnetA2]), (vnetB, "rgB", [subnetB1])] "t").map
        entityKey).Nodup :=
  claim_C4_amended [(vnetA, "rgA", [subnetA1, subnetA2]), (vnetB, "rgB", [subnetB1])] "t"
    (by decide)

/-- Splitting at a separator that does not occur in the first chunk peels
off exactly that chunk. -/
theorem splitOnChar_no_sep (c : Char) (l1 l2 : List Char) (h : c ∉ l1) :
    splitOnChar c (l1 ++ c :: l2) = l1 :: splitOnChar c l2 := by
  induction l1 with
  | nil => simp [splitOnChar]
  | cons x t ih =>
    have hx : ¬x = c := fun hh => h (hh ▸ List.mem_cons_self x t)
    have ht : c ∉ t := fun hh => h (List.mem_cons_of_mem x hh)
    simp only [List.cons_append, splitOnChar, List.append_eq, ih ht, if_neg hx]

/-- The extraction on a well-shaped identifier
`/subscriptions/{sub}/resourceGroups/{rg}/...`: the result is the
identifier's fifth `/`-separated segment, `{rg}`. -/
theorem resourceGroupFromId_shape (sub rg rest : String)
    (hsub : ('/' : Char) ∉ sub.data) (hrg : ('/' : Char) ∉ rg.data) :
    resourceGroupFromId ("/subscriptions/" ++ sub ++ "/resourceGroups/" ++ rg ++ "/" ++ rest) =
      some rg := by
  have hdata : ("/subscriptions/" ++ sub ++ "/resourceGroups/" ++ rg ++ "/" ++ rest).data =
      '/' :: ("subscriptions".data ++ '/' ::
        (sub.data ++ '/' :: ("resourceGroups".data ++ '/' :: (rg.data ++ '/' :: rest.data)))) := by
    simp only [String.data_append]
    simp [List.append_assoc, List.cons_append]
  have s0 : ∀ L : List Char, splitOnChar '/' ('/' :: L) = [] :: splitOnChar '/' L :=
    fun L => by simp [splitOnChar]
  rw [resourceGroupFromId, hdata, s0,
    splitOnChar_no_sep '/' "subscriptions".data _ (by decide),
    splitOnChar_no_sep '/' sub.data _ hsub,
    splitOnChar_no_sep '/' "resourceGroups".data _ (by decide),
    splitOnChar_no_sep '/' rg.data _ hrg]
  rfl

/-- **C5, counterexample.** A malformed identifier is not "a hard error for
that network only": with a malformed first network and a well-formed second
one, the run returns 500 and the second network's item is never written —
the whole remainder of the run is skipped, not just the malformed
network. -/
theorem claim_C5_cex :
    (runMain azureClient emptyStore (.ok [vnetBad, vnetC]) lsFixture "t").1.statusCode = 500 ∧
      ((runMain azureClient emptyStore (.ok [vnetBad, vnetC]) lsFixture "t").2).store
        ("vnetC", "subC1") = none ∧
      resourceGroupFromId vnetBad.id = none :=
  ⟨by decide, by decide, by decide⟩

/-- **C5, amended.** For every identifier of the shape
`/subscriptions/{sub}/resourceGroups/{rg}/...` the derived resource group
is the fifth path segment `{rg}`.  For a malformed identifier lacking that
segment the extraction raises: the network's subnets are skipped (never
written, never mis-attributed), all subsequent networks are skipped too,
and the run returns the handled 500 error response (the function does not
crash), with the trace exactly as it was before the malformed network. -/
theorem claim_C5_amended :
    (∀ sub rg rest : String, ('/' : Char) ∉ sub.data → ('/' : Char) ∉ rg.data →
      resourceGroupFromId ("/subscriptions/" ++ sub ++ "/resourceGroups/" ++ rg ++ "/" ++ rest) =
        some rg) ∧
    (∀ (σ : Type) (tc : TableClient σ) (st : σ) (ls : VNet → Except String (List Subnet))
      (now : String) (vs1 : List VNet) (v : VNet) (vs2 : List VNet) (t1 : RunTrace σ),
      processVNets tc ls now (initTrace st) vs1 = (t1, none) →
      resourceGroupFromId v.id = none →
      runMain tc st (.ok (vs1 ++ v :: vs2)) ls now =
        ({ body := "An error occurred: list index out of range", statusCode := 500 }, t1)) := by
  refine ⟨resourceGroupFromId_shape, ?_⟩
  intro σ tc st ls now vs1 v vs2 t1 h1 hrg
  have hv : processVNets tc ls now t1 (v :: vs2) = (t1, some "list index out of range") := by
    simp only [processVNets, hrg]
  have hfull : processVNets tc ls now (initTrace st) (vs1 ++ v :: vs2) =
      (t1, some "list index out of range") := by
    rw [processVNets_append]
    simp only [h1]
    exact hv
  simp only [runMain, hfull]
  rfl

theorem claim_C5_amended_witness :
    resourceGroupFromId
        ("/subscriptions/" ++ "abc" ++ "/resourceGroups/" ++ "rg1" ++ "/" ++
          "providers/m/virtualNetworks/vnet1") = some "rg1" ∧
      runMain azureClient emptyStore (.ok ([] ++ vnetBad :: [vnetC])) lsFixture "t" =
        ({ body := "An error occurred: list index out of range", statusCode := 500 },
          initTrace emptyStore) :=
  ⟨claim_C5_amended.1 "abc" "rg1" "providers/m/virtualNetworks/vnet1" (by decide) (by decide),
    claim_C5_amended.2 Store azureClient emptyStore lsFixture "t" [] vnetBad [vnetC]
      (initTrace emptyStore) rfl rfl⟩

/-! ## Fault-free runs over the faithful Azure client -/

/-- One write against the faithful client: update when the key is present,
otherwise the not-found fallback inserts; either way the store afterwards
holds the entity at its key and no exception escapes. -/
theorem upsertEntity_azure (st : Store) (e : Entity) :
    upsertEntity azureClient st e =
      if (st (entityKey e)).isSome then .updated (updStore st e)
      else .inserted (updStore st e) := by
  cases h : st (entityKey e) with
  | some x =>
    simp only [upsertEntity, azureClient, azureUpdate, h, Option.isSome_some, if_true]
    rfl
  | none =>
    simp only [upsertEntity, azureClient, azureUpdate, azureCreate, h,
      show isNotFoundError notFoundMsg = true from by decide, if_true, Option.isSome_none,
      Bool.false_eq_true, if_false]
    rfl

/-- The inner loop over the faithful client never raises and acts on the
trace as the pure fold of its entities, with the updated/inserted keys
split by presence at write time. -/
theorem processSubnets_azure (v : VNet) (rg now : String) :
    ∀ (ss : List Subnet) (t : RunTrace Store),
    processSubnets azureClient v rg now t ss =
      ({ store := applyEntities t.store (ss.map fun s => mkEntity v rg s now),
         errors := t.errors,
         written := t.written ++ ss.map fun s => mkEntity v rg s now,
         updatedKeys := t.updatedKeys ++ updSplit t.store (ss.map fun s => mkEntity v rg s now),
         insertedKeys := t.insertedKeys ++
           insSplit t.store (ss.map fun s => mkEntity v rg s now) }, none) := by
  intro ss
  induction ss with
  | nil => intro t; simp [processSubnets, applyEntities, updSplit, insSplit]
  | cons s ss ih =>
    intro t
    rw [processSubnets, upsertEntity_azure]
    cases h : t.store (entityKey (mkEntity v rg s now)) with
    | some x =>
      simp only [h, Option.isSome_some, if_true, ih]
      simp [applyEntities, updSplit, insSplit, h, List.append_assoc]
    | none =>
      simp only [h, Option.isSome_none, Bool.false_eq_true, if_false, ih]
      simp [applyEntities, updSplit, insSplit, h, List.append_assoc]

/-- Folding the writes of a concatenation. -/
theorem applyEntities_append (st : Store) (es1 es2 : List Entity) :
    applyEntities st (es1 ++ es2) = applyEntities (applyEntities st es1) es2 := by
  simp [applyEntities, List.foldl_append]

/-- The update-branch keys of a concatenation. -/
theorem updSplit_append (es1 es2 : List Entity) : ∀ st : Store,
    updSplit st (es1 ++ es2) = updSplit st es1 ++ updSplit (applyEntities st es1) es2 := by
  induction es1 with
  | nil => intro st; simp [updSplit, applyEntities]
  | cons e es ih =>
    intro st
    by_cases h : (st (entityKey e)).isSome <;>
      simp [updSplit, h, ih, applyEntities]

/-- The insert-branch keys of a concatenation. -/
theorem insSplit_append (es1 es2 : List Entity) : ∀ st : Store,
    insSplit st (es1 ++ es2) = insSplit st es1 ++ insSplit (applyEntities st es1) es2 := by
  induction es1 with
  | nil => intro st; simp [insSplit, applyEntities]
  | cons e es ih =>
    intro st
    by_cases h : (st (entityKey e)).isSome <;>
      simp [insSplit, h, ih, applyEntities]

/-- The outer loop over the faithful client with fault-free subnet listing
and well-formed identifiers: no exception, and the trace is the pure fold
over the run's flat entity sequence. -/
theorem processVNets_azure (sn : VNet → List Subnet) (now : String) :
    ∀ (vs : List VNet) (t : RunTrace Store),
    (∀ v ∈ vs, (resourceGroupFromId v.id).isSome) →
    processVNets azureClient (fun v => .ok (sn v)) now t vs =
      ({ store := applyEntities t.store (allEntities vs sn now),
         errors := t.errors,
         written := t.written ++ allEntities vs sn now,
         updatedKeys := t.updatedKeys ++ updSplit t.store (allEntities vs sn now),
         insertedKeys := t.insertedKeys ++ insSplit t.store (allEntities vs sn now) },
        none) := by
  intro vs
  induction vs with
  | nil =>
    intro t _
    simp [processVNets, allEntities, applyEntities, updSplit, insSplit]
  | cons v vs ih =>
    intro t hwf
    obtain ⟨rg, hrg⟩ := Option.isSome_iff_exists.mp (hwf v (List.mem_cons_self v vs))
    have hall : allEntities (v :: vs) sn now =
        ((sn v).map fun s => mkEntity v rg s now) ++ allEntities vs sn now := by
      simp [allEntities, vnetEntities, hrg]
    have hih := ih
      { store := applyEntities t.store ((sn v).map fun s => mkEntity v rg s now),
        errors := t.errors,
        written := t.written ++ (sn v).map fun s => mkEntity v rg s now,
        updatedKeys := t.updatedKeys ++ updSplit t.store ((sn v).map fun s => mkEntity v rg s now),
        insertedKeys := t.insertedKeys ++
          insSplit t.store ((sn v).map fun s => mkEntity v rg s now) }
      (fun v' hv' => hwf v' (List.mem_cons_of_mem v hv'))
    rw [processVNets]
    simp only [hrg]
    rw [processSubnets_azure]
    simp only [hih]
    simp [hall, applyEntities_append, updSplit_append, insSplit_append, List.append_assoc]

/-- A fault-free full run over the faithful client: the 200 response, and
the trace as pure folds over the run's entity sequence. -/
theorem runMain_azure (vs : List VNet) (sn : VNet → List Subnet) (now : String) (s0 : Store)
    (hwf : ∀ v ∈ vs, (resourceGroupFromId v.id).isSome) :
    runMain azureClient s0 (.ok vs) (fun v => .ok (sn v)) now =
      ({ body := "VNet and Subnet scan completed successfully.", statusCode := 200 },
        { store := applyEntities s0 (allEntities vs sn now),
          errors := [],
          written := allEntities vs sn now,
          updatedKeys := updSplit s0 (allEntities vs sn now),
          insertedKeys := insSplit s0 (allEntities vs sn now) }) := by
  have h := processVNets_azure sn now vs (initTrace s0) hwf
  simp only [runMain, h]
  simp [initTrace]

/-- A point update keeps every present key present. -/
theorem updStore_isSome (st : Store) (e : Entity) (k : String × String)
    (h : (st k).isSome) : ((updStore st e) k).isSome := by
  by_cases hk : k = entityKey e <;> simp [updStore, hk, h]

/-- Folding writes keeps every present key present. -/
theorem applyEntities_isSome (es : List Entity) : ∀ (st : Store) (k : String × String),
    (st k).isSome → ((applyEntities st es) k).isSome := by
  induction es with
  | nil => intro st k h; simpa [applyEntities] using h
  | cons e es ih => intro st k h; exact ih _ _ (updStore_isSome st e k h)

/-- After folding the writes, every written entity's key is present. -/
theorem applyEntities_mem_isSome (es : List Entity) : ∀ (st : Store) (e : Entity),
    e ∈ es → ((applyEntities st es) (entityKey e)).isSome := by
  induction es with
  | nil => intro st e h; exact absurd h (List.not_mem_nil e)
  | cons e' es ih =>
    intro st e h
    rcases List.mem_cons.mp h with h | h
    · subst h
      exact applyEntities_isSome es (updStore st e) (entityKey e) (by simp [updStore])
    · exact ih _ e h

/-- Writing a sequence whose keys are all already present performs no
insert: the insert-branch key list is empty and the update-branch key list
is every entity's key, in order. -/
theorem split_all_present (es : List Entity) : ∀ st : Store,
    (∀ e ∈ es, (st (entityKey e)).isSome) →
    insSplit st es = [] ∧ updSplit st es = es.map entityKey := by
  induction es with
  | nil => intro st _; exact ⟨rfl, rfl⟩
  | cons e es ih =>
    intro st h
    have he := h e (List.mem_cons_self e es)
    have hrest : ∀ e' ∈ es, ((updStore st e) (entityKey e')).isSome :=
      fun e' he' => updStore_isSome st e _ (h e' (List.mem_cons_of_mem e he'))
    obtain ⟨h1, h2⟩ := ih (updStore st e) hrest
    exact ⟨by simp [insSplit, he, h1], by simp [updSplit, he, h2]⟩

/-- What the fold leaves at a key: the last entity written there, else the
original content. -/
theorem applyEntities_apply (es : List Entity) : ∀ (st : Store) (k : String × String),
    applyEntities st es k =
      (match lastWrite k es with
        | some e => some e
        | none => st k) := by
  induction es with
  | nil => intro st k; simp [applyEntities, lastWrite]
  | cons e es ih =>
    intro st k
    have hstep : applyEntities st (e :: es) k = applyEntities (updStore st e) es k := rfl
    rw [hstep, ih]
    cases h : lastWrite k es with
    | some x => simp [lastWrite, h]
    | none =>
      simp only [lastWrite, h]
      by_cases hk : k = entityKey e <;> simp [updStore, hk]

/-- Replaying the same writes over their own result changes nothing. -/
theorem applyEntities_idem (es : List Entity) (s0 : Store) :
    applyEntities (applyEntities s0 es) es = applyEntities s0 es := by
  funext k
  rw [applyEntities_apply]
  cases h : lastWrite k es with
  | some e => rw [applyEntities_apply, h]
  | none => rfl

/-- The run's key sequence does not depend on the run's clock. -/
theorem allEntities_keys (vs : List VNet) (sn : VNet → List Subnet) (now : String) :
    (allEntities vs sn now).map entityKey = allKeys vs sn := by
  simp [allEntities, vnetEntities, allKeys, List.map_flatMap, List.map_map,
    Function.comp_def, entityKey, mkEntity]

/-- **C6, counterexample.** Each entity carries `datetime.utcnow()` in its
`timestamp` attribute, so two runs over unchanged source data leave
different store states: after the second run the entity at
`("vnetA", "subA1")` holds the second run's timestamp, not the first's. -/
theorem claim_C6_cex :
    (runMain azureClient
        (runMain azureClient emptyStore (.ok [vnetA]) lsFixture "t1").2.store
        (.ok [vnetA]) lsFixture "t2").2.store ("vnetA", "subA1") ≠
      (runMain azureClient emptyStore (.ok [vnetA]) lsFixture "t1").2.store
        ("vnetA", "subA1") ∧
    (runMain azureClient
        (runMain azureClient emptyStore (.ok [vnetA]) lsFixture "t1").2.store
        (.ok [vnetA]) lsFixture "t2").2.store ≠
      (runMain azureClient emptyStore (.ok [vnetA]) lsFixture "t1").2.store := by
  refine ⟨by decide, fun h => ?_⟩
  exact absurd (congrFun h ("vnetA", "subA1")) (by decide)

/-- **C6, amended.** Running the reconciliation twice in a row over the same
unchanged source data (well-formed identifiers, fault-free listing): both
runs succeed, and during run 2 every item is written via update only — no
inserts, no logged failures, and the updated keys are exactly the run's
keys in order.  The store state after run 2 equals the state after run 1
whenever run 2 stamps the same observation timestamp; with a different
timestamp the states differ only by that attribute (see the
counterexample). -/
theorem claim_C6_amended (vs : List VNet) (sn : VNet → List Subnet) (now1 now2 : String)
    (s0 : Store) (hwf : ∀ v ∈ vs, (resourceGroupFromId v.id).isSome) :
    (runMain azureClient s0 (.ok vs) (fun v => .ok (sn v)) now1).1.statusCode = 200 ∧
    (runMain azureClient (runMain azureClient s0 (.ok vs) (fun v => .ok (sn v)) now1).2.store
        (.ok vs) (fun v => .ok (sn v)) now2).1.statusCode = 200 ∧
    (runMain azureClient (runMain azureClient s0 (.ok vs) (fun v => .ok (sn v)) now1).2.store
        (.ok vs) (fun v => .ok (sn v)) now2).2.insertedKeys = [] ∧
    (runMain azureClient (runMain azureClient s0 (.ok vs) (fun v => .ok (sn v)) now1).2.store
        (.ok vs) (fun v => .ok (sn v)) now2).2.errors = [] ∧
    (runMain azureClient (runMain azureClient s0 (.ok vs) (fun v => .ok (sn v)) now1).2.store
        (.ok vs) (fun v => .ok (sn v)) now2).2.updatedKeys =
      (allEntities vs sn now2).map entityKey ∧
    (now2 = now1 →
      (runMain azureClient (runMain azureClient s0 (.ok vs) (fun v => .ok (sn v)) now1).2.store
          (.ok vs) (fun v => .ok (sn v)) now2).2.store =
        (runMain azureClient s0 (.ok vs) (fun v => .ok (sn v)) now1).2.store) := by
  have h1 := runMain_azure vs sn now1 s0 hwf
  have h2 := runMain_azure vs sn now2 (applyEntities s0 (allEntities vs sn now1)) hwf
  have hpres : ∀ e ∈ allEntities vs sn now2,
      ((applyEntities s0 (allEntities vs sn now1)) (entityKey e)).isSome := by
    intro e he
    have hks : entityKey e ∈ (allEntities vs sn now1).map entityKey := by
      rw [allEntities_keys, ← allEntities_keys vs sn now2]
      exact List.mem_map_of_mem entityKey he
    obtain ⟨e1, he1, hkeq⟩ := List.mem_map.mp hks
    rw [← hkeq]
    exact applyEntities_mem_isSome (allEntities vs sn now1) s0 e1 he1
  obtain ⟨hins, hupd⟩ :=
    split_all_present (allEntities vs sn now2) (applyEntities s0 (allEntities vs sn now1)) hpres
  refine ⟨by rw [h1], by rw [h1, h2], by rw [h1, h2]; exact hins, by rw [h1, h2],
    by rw [h1, h2]; exact hupd, fun hnow => ?_⟩
  subst hnow
  rw [h1, h2]
  exact applyEntities_idem (allEntities vs sn now2) s0

theorem claim_C6_amended_witness :
    (runMain azureClient emptyStore (.ok [vnetA]) (fun v => .ok (lsFix v)) "t1").1.statusCode =
        200 ∧
      (runMain azureClient
          (runMain azureClient emptyStore (.ok [vnetA]) (fun v => .ok (lsFix v)) "t1").2.store
          (.ok [vnetA]) (fun v => .ok (lsFix v)) "t1").1.statusCode = 200 ∧
      (runMain azureClient
          (runMain azureClient emptyStore (.ok [vnetA]) (fun v => .ok (lsFix v)) "t1").2.store
          (.ok [vnetA]) (fun v => .ok (lsFix v)) "t1").2.insertedKeys = [] ∧
      (runMain azureClient
          (runMain azureClient emptyStore (.ok [vnetA]) (fun v => .ok (lsFix v)) "t1").2.store
          (.ok [vnetA]) (fun v => .ok (lsFix v)) "t1").2.errors = [] ∧
      (runMain azureClient
          (runMain azureClient emptyStore (.ok [vnetA]) (fun v => .ok (lsFix v)) "t1").2.store
          (.ok [vnetA]) (fun v => .ok (lsFix v)) "t1").2.updatedKeys =
        (allEntities [vnetA] lsFix "t1").map entityKey ∧
      ("t1" = "t1" →
        (runMain azureClient
            (runMain azureClient emptyStore (.ok [vnetA]) (fun v => .ok (lsFix v)) "t1").2.store
            (.ok [vnetA]) (fun v => .ok (lsFix v)) "t1").2.store =
          (runMain azureClient emptyStore (.ok [vnetA]) (fun v => .ok (lsFix v)) "t1").2.store) :=
  claim_C6_amended [vnetA] lsFix "t1" "t1" emptyStore (by decide)

end VnetScanner
